import Mathlib

/-!
Verification of the calendar event store and command engine.

The development shallowly embeds the TypeScript sources:
* `Event` mirrors the `Event` interface (src/types/Event); JavaScript `Date`
  values are embedded as epoch-millisecond integers (`Int`).
* `CalendarService` mirrors the in-memory behaviour of the store in
  src/services/CalendarService.ts; the second store variant (the file whose
  only in-memory difference is `deleteEvent`) is embedded as `Variant5`.
  SQLite persistence is fire-and-forget and never read back inside one
  session, so only the in-memory snapshot and the notification fan-out are
  embedded.  A subscriber is embedded as a `Bool` that records whether its
  callback throws when invoked.
* `ActionParser` mirrors the regex-based parser and the command dispatcher
  of the ActionParser service file.
The platform functions `Date` string parsing and `JSON.parse` are external
to the repository; definitions that call them take them as explicit
function arguments (`dateParse`, `jsonParseUpdates`).
-/

namespace CalendarApp

/-- The `Event` interface: `id`, `title`, required `startTime`/`endTime`
(JS `Date`, embedded as epoch milliseconds) and an optional `description`. -/
structure Event where
  id : String
  title : String
  startTime : Int
  endTime : Int
  description : Option String
deriving DecidableEq, Repr

/-- ASCII lower-casing of one character, as `toLowerCase` acts on the
ASCII range (all inputs in this development are ASCII). -/
def lowerChar (c : Char) : Char :=
  if c.isUpper then Char.ofNat (c.toNat + 32) else c

/-- `String.prototype.toLowerCase` restricted to ASCII. -/
def toLowerCase (s : String) : String :=
  String.mk (s.data.map lowerChar)

/-- Substring test on character lists: `strContains hay needle` is true
iff `needle` occurs contiguously inside `hay` (true for an empty needle),
matching `String.prototype.includes`. -/
def strContains : List Char → List Char → Bool
  | hay, needle =>
    match hay with
    | [] => needle.isEmpty
    | _ :: t => List.isPrefixOf needle hay || strContains t needle

/-- `s.includes(q)` for strings. -/
def jsIncludes (s q : String) : Bool :=
  strContains s.data q.data

/-- One subscriber of the store.  The callback takes no argument and
returns nothing, so its only observable behaviour during `notify` is
whether it throws: `true` embeds a callback that throws. -/
abbrev Listener := Bool

/-- `notify()` — `this.subscribers.forEach(callback => callback())`.
`forEach` invokes the callbacks in registration order; a thrown exception
propagates out of `forEach`, so invocation stops at the first throwing
callback.  Returns the number of callbacks actually invoked (the thrower
itself counts: it was called) and whether an exception propagated. -/
def notify : List Listener → Nat × Bool
  | [] => (0, false)
  | b :: rest =>
    if b then (1, true)
    else
      let r := notify rest
      (r.1 + 1, r.2)

namespace CalendarService

/-- `getAllEvents()` — returns the in-memory snapshot. -/
def getAllEvents (events : List Event) : List Event :=
  events

/-- `findEventsByTitle(titleQuery)` — events whose lower-cased title
includes the lower-cased query, in snapshot order. -/
def findEventsByTitle (events : List Event) (titleQuery : String) : List Event :=
  let lowercasedQuery := toLowerCase titleQuery
  events.filter (fun event => jsIncludes (toLowerCase event.title) lowercasedQuery)

/-- `getEventById(id)` — `this.events.find(event => event.id === id)`. -/
def getEventById (events : List Event) (id : String) : Option Event :=
  events.find? (fun event => event.id == id)

/-- `createEvent(title, startTime, endTime, description?)`.
`now` is the value of `Date.now()` (epoch milliseconds); the generated id
is `Date.now().toString()`.  The new event is pushed onto the snapshot and
`notify()` runs; the SQL insert is fire-and-forget and not embedded.
Returns the created event and the new snapshot. -/
def createEvent (dateParse : String → Int) (now : Nat) (events : List Event)
    (title startTime endTime : String) (description : Option String) :
    Event × List Event :=
  let id := toString now
  let newEvent : Event :=
    { id := id, title := title, description := description,
      startTime := dateParse startTime, endTime := dateParse endTime }
  (newEvent, events ++ [newEvent])

/-- A `Partial<Event>` as produced by `JSON.parse` of the `updates`
payload (after the dispatcher converted `startTime`/`endTime` to dates):
each field is present or absent.  `description := some none` embeds an
explicit `null`. -/
structure EventUpdates where
  id : Option String := none
  title : Option String := none
  startTime : Option Int := none
  endTime : Option Int := none
  description : Option (Option String) := none
deriving DecidableEq, Repr

/-- `Object.assign(eventToUpdate, updates)` — every key present in
`updates` overwrites the corresponding field of the event, including
`id`; absent keys leave the field untouched. -/
def objectAssign (e : Event) (u : EventUpdates) : Event :=
  { id := u.id.getD e.id,
    title := u.title.getD e.title,
    startTime := u.startTime.getD e.startTime,
    endTime := u.endTime.getD e.endTime,
    description := u.description.getD e.description }

/-- `updateEventByTitle(titleQuery, updates)` — finds the first event
whose lower-cased title includes the lower-cased query, merges `updates`
into it in place via `Object.assign`, and notifies.  Returns the updated
event (or `none`) and the new snapshot. -/
def updateEventByTitle : List Event → String → EventUpdates → Option Event × List Event
  | [], _, _ => (none, [])
  | e :: rest, titleQuery, updates =>
    if jsIncludes (toLowerCase e.title) (toLowerCase titleQuery) then
      let updated := objectAssign e updates
      (some updated, updated :: rest)
    else
      let r := updateEventByTitle rest titleQuery updates
      (r.1, e :: r.2)

/-- `deleteEventByTitle(titleQuery)` — takes `findEventsByTitle(q)[0]`;
if present, filters it out of the snapshot by id and notifies (third
component: whether `notify()` ran).  Returns whether a deletion happened. -/
def deleteEventByTitle (events : List Event) (titleQuery : String) :
    Bool × List Event × Bool :=
  match findEventsByTitle events titleQuery with
  | [] => (false, events, false)
  | eventToDelete :: _ =>
    (true, events.filter (fun event => !(event.id == eventToDelete.id)), true)

/-- `updateEvent(id, title, description?)` — `findIndex` by id; if found,
replaces the event at that index by `{ ...existing, title, description }`
(so `description` is always overwritten with the argument, which is `none`
when the caller omits it) and notifies.  Returns the updated event. -/
def updateEvent : List Event → String → String → Option String → Option Event × List Event
  | [], _, _, _ => (none, [])
  | e :: rest, id, title, description =>
    if e.id == id then
      let updatedEvent : Event := { e with title := title, description := description }
      (some updatedEvent, updatedEvent :: rest)
    else
      let r := updateEvent rest id title description
      (r.1, e :: r.2)

/-- `deleteEvent(id)` (src/services/CalendarService.ts variant) — filters
the snapshot by id, then calls `notify()` unconditionally (third
component `true`), and returns whether the length shrank. -/
def deleteEvent (events : List Event) (id : String) : Bool × List Event × Bool :=
  let initialLength := events.length
  let remaining := events.filter (fun event => !(event.id == id))
  (decide (remaining.length < initialLength), remaining, true)

end CalendarService

namespace Variant5

/-- `deleteEvent(id)` (second store variant) — `findIndex` by id; only
when found does it `splice` the event out and call `notify()` (third
component records whether `notify()` ran). -/
def deleteEvent : List Event → String → Bool × List Event × Bool
  | [], _ => (false, [], false)
  | e :: rest, id =>
    if e.id == id then (true, rest, true)
    else
      let r := deleteEvent rest id
      (r.1, e :: r.2.1, r.2.2)

end Variant5

/-- Outcome of running `createEvent` together with its notification
fan-out over a given subscriber list. -/
structure MutationRun where
  events : List Event
  invoked : Nat
  raised : Bool
deriving DecidableEq, Repr

/-- `createEvent` as executed by the store: push onto the snapshot, then
`notify()` over the registered subscribers (the SQL insert follows and is
not embedded).  `invoked` counts the callbacks that actually ran. -/
def createEventRun (dateParse : String → Int) (now : Nat) (subs : List Listener)
    (events : List Event) (title startTime endTime : String)
    (description : Option String) : MutationRun :=
  let r := CalendarService.createEvent dateParse now events title startTime endTime description
  let n := notify subs
  { events := r.2, invoked := n.1, raised := n.2 }

namespace ActionParser

/-- JS `\w`: ASCII letter, digit or underscore. -/
def isWordChar (c : Char) : Bool :=
  c.isAlphanum || c == '_'

/-- The literal head of the command pattern, `ACTION:`. -/
def actionTag : List Char :=
  ['A', 'C', 'T', 'I', 'O', 'N', ':']

/-- Greedy `(.*)\)` under the dotall flag: the capture runs to the LAST
`)` of the remaining text.  Returns the characters before that last `)`,
or `none` when no `)` occurs. -/
def splitAtLastRParen : List Char → Option (List Char)
  | [] => none
  | c :: rest =>
    match splitAtLastRParen rest with
    | some t => some (c :: t)
    | none => if c == ')' then some [] else none

/-- Matching `(\w+)\((.*)\)` against the text that follows `ACTION:`:
a maximal non-empty run of word characters (greedy `\w+` needs no
backtracking, since every shorter run is followed by a word character,
not `(`), then a literal `(`, then the greedy dotall capture closed by
the last `)`.  Returns the command name and the raw argument text. -/
def matchAfterTag (s : List Char) : Option (String × String) :=
  if (s.takeWhile isWordChar).isEmpty then none
  else
    match s.drop (s.takeWhile isWordChar).length with
    | '(' :: rest =>
      match splitAtLastRParen rest with
      | some args => some (String.mk (s.takeWhile isWordChar), String.mk args)
      | none => none
    | _ => none

/-- `text.match(/ACTION:(\w+)\((.*)\)/s)` — the regex engine tries each
start position left to right; a position can start a match only where the
literal `ACTION:` occurs, and on failure the engine moves one character
right. -/
def findActionMatch : List Char → Option (String × String)
  | [] => none
  | c :: rest =>
    if List.isPrefixOf actionTag (c :: rest) then
      match matchAfterTag ((c :: rest).drop actionTag.length) with
      | some r => some r
      | none => findActionMatch rest
    else
      findActionMatch rest

/-- Scan of the value part `((?:\\"|[^"])*)"` up to the first `"` that is
not immediately preceded by `\` (the greedy token loop consumes an
escaped quote as part of a `\"` token and stops exactly at the first
unescaped quote).  `prevBackslash` says whether the previous character
was `\`.  Returns the captured characters and the text after the closing
quote. -/
def firstUnescaped (prevBackslash : Bool) : List Char → Option (List Char × List Char)
  | [] => none
  | c :: rest =>
    if c == '"' && !prevBackslash then some ([], rest)
    else
      match firstUnescaped (c == '\\') rest with
      | some (v, r) => some (c :: v, r)
      | none => none

/-- Fallback closing position when every `"` of the remaining text is
escaped: backtracking re-reads one `\` as a plain `[^"]` character, so
the match closes at the LAST `"` of the text.  Returns the characters
before it and the text after it. -/
def splitAtLastQuote : List Char → Option (List Char × List Char)
  | [] => none
  | c :: rest =>
    match splitAtLastQuote rest with
    | some (v, r) => some (c :: v, r)
    | none => if c == '"' then some ([], rest) else none

/-- Full behaviour of `="((?:\\"|[^"])*)"` after the opening quote: the
greedy loop closes at the first unescaped quote when one exists, and
otherwise backtracking closes at the last quote; with no quote at all the
match fails. -/
def valueMatch (s : List Char) : Option (List Char × List Char) :=
  match firstUnescaped false s with
  | some r => some r
  | none => splitAtLastQuote s

/-- `value.replace(/\\"/g, String.fromCharCode(34))` — left-to-right,
non-overlapping replacement of `\"` by `"`. -/
def unescape : List Char → List Char
  | [] => []
  | '\\' :: '"' :: rest => '"' :: unescape rest
  | c :: rest => c :: unescape rest

theorem firstUnescaped_length (b : Bool) (s : List Char) (v r : List Char)
    (h : firstUnescaped b s = some (v, r)) : r.length < s.length := by
  induction s generalizing b v with
  | nil => simp [firstUnescaped] at h
  | cons c rest ih =>
    rw [firstUnescaped] at h
    by_cases hc : (c == '"' && !b) = true
    · rw [if_pos hc] at h
      obtain ⟨rfl, rfl⟩ : ([] : List Char) = v ∧ rest = r := by
        constructor <;> [exact congrArg Prod.fst (Option.some.inj h);
          exact congrArg Prod.snd (Option.some.inj h)]
      simp
    · rw [if_neg hc] at h
      cases h2 : firstUnescaped (c == '\\') rest with
      | none => rw [h2] at h; exact absurd h (by simp)
      | some p =>
        rw [h2] at h
        obtain ⟨v2, r2⟩ := p
        have hr : r2 = r := by
          have := Option.some.inj h
          exact congrArg Prod.snd this
        subst hr
        exact Nat.lt_trans (ih (c == '\\') v2 h2) (by simp)

theorem splitAtLastQuote_length (s : List Char) (v r : List Char)
    (h : splitAtLastQuote s = some (v, r)) : r.length < s.length := by
  induction s generalizing v with
  | nil => simp [splitAtLastQuote] at h
  | cons c rest ih =>
    rw [splitAtLastQuote] at h
    cases h2 : splitAtLastQuote rest with
    | none =>
      rw [h2] at h
      by_cases hc : (c == '"') = true
      · rw [if_pos hc] at h
        have hr : rest = r := congrArg Prod.snd (Option.some.inj h)
        subst hr
        simp
      · rw [if_neg hc] at h; exact absurd h (by simp)
    | some p =>
      rw [h2] at h
      obtain ⟨v2, r2⟩ := p
      have hr : r2 = r := congrArg Prod.snd (Option.some.inj h)
      subst hr
      exact Nat.lt_trans (ih v2 h2) (by simp)

theorem valueMatch_length (s : List Char) (v r : List Char)
    (h : valueMatch s = some (v, r)) : r.length < s.length := by
  rw [valueMatch] at h
  cases h2 : firstUnescaped false s with
  | none => rw [h2] at h; exact splitAtLastQuote_length s v r h
  | some p =>
    rw [h2] at h
    obtain ⟨v2, r2⟩ := p
    simp only [Option.some.injEq, Prod.mk.injEq] at h
    rw [← h.2]
    exact firstUnescaped_length false s v2 r2 h2

/-- The repeated `paramRegex.exec` loop over `/(\w+)="((?:\\"|[^"])*)"/g`:
scan left to right; at a word character, take the maximal key run, then
require `="`, then the value match; on success emit the pair (with the
value unescaped) and resume after the closing quote, otherwise move one
character right. -/
def extractParams : List Char → List (String × String)
  | [] => []
  | c :: rest =>
    if isWordChar c then
      let key := (c :: rest).takeWhile isWordChar
      match h2 : (c :: rest).drop key.length with
      | '=' :: '"' :: vrest =>
        match h3 : valueMatch vrest with
        | some (v, r) => (String.mk key, String.mk (unescape v)) :: extractParams r
        | none => extractParams rest
      | _ => extractParams rest
    else
      extractParams rest
termination_by s => s.length
decreasing_by
  · have h4 := valueMatch_length vrest v r h3
    have h5 := congrArg List.length h2
    rw [List.length_drop] at h5
    simp only [List.length_cons] at h5 ⊢
    omega
  · simp
  · simp
  · simp

/-- Sequential JS property assignment `params[key] = value`: an existing
key has its value replaced, a new key is appended. -/
def jsAssign (m : List (String × String)) (k v : String) : List (String × String) :=
  if m.any (fun p => p.1 == k) then
    m.map (fun p => if p.1 == k then (k, v) else p)
  else
    m ++ [(k, v)]

/-- Builds the `params` object by assigning each extracted pair in
match order. -/
def assignParams (ms : List (String × String)) : List (String × String) :=
  ms.foldl (fun m kv => jsAssign m kv.1 kv.2) []

/-- Property read `params[key]` (keys in the built object are unique, so
the first binding is the binding). -/
def getParam (m : List (String × String)) (k : String) : Option String :=
  (m.find? (fun p => p.1 == k)).map (fun p => p.2)

/-- A parsed command: the extracted name (not validated by the parser)
and the parameter object. -/
structure Action where
  command : String
  params : List (String × String)
deriving DecidableEq, Repr

/-- `ActionParser.parse(text)` — match the outer pattern; on failure
return `null`; on success build the parameter object from the argument
text (an empty argument text yields no parameter matches). -/
def parse (text : String) : Option Action :=
  match findActionMatch text.data with
  | none => none
  | some (command, paramsStr) =>
    some { command := command, params := assignParams (extractParams paramsStr.data) }

/-- JS truthiness of an optional string parameter: `undefined` and the
empty string are falsy. -/
def truthy : Option String → Bool
  | none => false
  | some s => !(s == "")

/-- Outcome of one `ActionParser.execute` dispatch: the returned value
(`string | Event[]`), the snapshot afterwards, and whether the store ran
its notification fan-out. -/
structure ExecResult where
  result : String ⊕ List Event
  events : List Event
  notified : Bool
deriving DecidableEq

/-- `ActionParser.execute(action)` — the `switch` over the command name.
`jsonParseUpdates` embeds the platform `JSON.parse` on the `updates`
payload together with the dispatcher's conversion of its
`startTime`/`endTime` entries via `new Date` (`none` embeds a thrown
`SyntaxError`); `dateParse` embeds `new Date(string).getTime()`; `now` is
`Date.now()`.  In the `READ_EVENTS` branch, `title && title.length > 0`
is falsy exactly when the parameter is absent or empty. -/
def execute (jsonParseUpdates : String → Option CalendarService.EventUpdates)
    (dateParse : String → Int) (now : Nat) (action : Action)
    (events : List Event) : ExecResult :=
  if action.command == "CREATE_EVENT" then
    let title := getParam action.params "title"
    let startTime := getParam action.params "startTime"
    let endTime := getParam action.params "endTime"
    let description := getParam action.params "description"
    if truthy title && truthy startTime && truthy endTime then
      let r := CalendarService.createEvent dateParse now events
        (title.getD "") (startTime.getD "") (endTime.getD "")
        (some (description.getD ""))
      { result := Sum.inl "Event created successfully.", events := r.2, notified := true }
    else
      { result := Sum.inl "Create event failed: Missing required parameters.",
        events := events, notified := false }
  else if action.command == "READ_EVENTS" then
    let evts :=
      match getParam action.params "title" with
      | some title =>
        if title.length > 0 then CalendarService.findEventsByTitle events title
        else CalendarService.getAllEvents events
      | none => CalendarService.getAllEvents events
    { result := Sum.inr evts, events := events, notified := false }
  else if action.command == "UPDATE_EVENT" then
    let title := getParam action.params "title"
    let updates := getParam action.params "updates"
    if !truthy title || !truthy updates then
      { result := Sum.inl "Update failed: Missing title or update information.",
        events := events, notified := false }
    else
      match jsonParseUpdates (updates.getD "") with
      | none =>
        { result := Sum.inl
            "There was an error updating the event. The update details were not formatted correctly.",
          events := events, notified := false }
      | some parsedUpdates =>
        let r := CalendarService.updateEventByTitle events (title.getD "") parsedUpdates
        match r.1 with
        | some _ =>
          { result := Sum.inl ("Event \x27" ++ title.getD "" ++ "\x27 updated successfully."),
            events := r.2, notified := true }
        | none =>
          { result := Sum.inl ("Could not find an event with the title \x27" ++
              title.getD "" ++ "\x27."),
            events := r.2, notified := false }
  else if action.command == "DELETE_EVENT" then
    let title := getParam action.params "title"
    if !truthy title then
      { result := Sum.inl "Delete failed: Missing title information.",
        events := events, notified := false }
    else
      let r := CalendarService.deleteEventByTitle events (title.getD "")
      if r.1 then
        { result := Sum.inl ("Event \x27" ++ title.getD "" ++ "\x27 deleted successfully."),
          events := r.2.1, notified := r.2.2 }
      else
        { result := Sum.inl ("Could not find an event with the title \x27" ++
            title.getD "" ++ "\x27."),
          events := r.2.1, notified := r.2.2 }
  else
    { result := Sum.inl ("Unknown command: " ++ action.command),
      events := events, notified := false }

end ActionParser

/-! ## Claim C1 -/

/-- Claim C1, counterexample.  On the store holding the single event
`{id "1", title "Old", 0, 10, description "keep"}`, the update-by-ID
operation called with new title `"New"` (description omitted) yields an
event whose description is `none`: the description is NOT unchanged, so
the claim as stated is false. -/
theorem c1_description_cleared :
    CalendarService.getEventById
        (CalendarService.updateEvent
          [{ id := "1", title := "Old", startTime := 0, endTime := 10,
             description := some "keep" }] "1" "New" none).2 "1"
      = some { id := "1", title := "New", startTime := 0, endTime := 10,
               description := none } ∧
    (some "keep" : Option String) ≠ none := by
  decide

/-- Claim C1 (amended): updating an existing event by ID with title `T`
and description argument `d`, then reading it back by ID, yields an event
with `title = T`, with `id`, `startTime` and `endTime` unchanged, and
with `description` equal to the passed argument `d` (so the description
is cleared when the caller omits it, and is unchanged only when `d`
equals the previous description). -/
theorem c1_update_by_id_roundtrip (events : List Event) (id title : String)
    (d : Option String) (old : Event)
    (h : CalendarService.getEventById events id = some old) :
    ∃ u, (CalendarService.updateEvent events id title d).1 = some u ∧
      CalendarService.getEventById
        (CalendarService.updateEvent events id title d).2 id = some u ∧
      u.id = old.id ∧ u.title = title ∧ u.startTime = old.startTime ∧
      u.endTime = old.endTime ∧ u.description = d := by
  induction events with
  | nil => simp [CalendarService.getEventById] at h
  | cons e rest ih =>
    rw [CalendarService.getEventById] at h
    by_cases he : (e.id == id) = true
    · rw [List.find?_cons_of_pos (p := fun event : Event => event.id == id) _ he] at h
      obtain rfl : e = old := Option.some.inj h
      refine ⟨{ e with title := title, description := d }, ?_, ?_, rfl, rfl, rfl, rfl, rfl⟩
      · simp [CalendarService.updateEvent, he]
      · simp only [CalendarService.updateEvent, he, if_true]
        rw [CalendarService.getEventById]
        exact List.find?_cons_of_pos (p := fun event : Event => event.id == id) _ he
    · rw [List.find?_cons_of_neg (p := fun event : Event => event.id == id) _ he] at h
      obtain ⟨u, hu1, hu2, hu3, hu4, hu5, hu6, hu7⟩ := ih h
      refine ⟨u, ?_, ?_, hu3, hu4, hu5, hu6, hu7⟩
      · simpa [CalendarService.updateEvent, he] using hu1
      · have h2 : (CalendarService.updateEvent (e :: rest) id title d).2
            = e :: (CalendarService.updateEvent rest id title d).2 := by
          simp [CalendarService.updateEvent, he]
        rw [h2, CalendarService.getEventById,
          List.find?_cons_of_neg (p := fun event : Event => event.id == id) _ he]
        exact hu2

/-- Witness for the amended C1 theorem at a concrete store. -/
theorem c1_update_by_id_roundtrip_witness :
    ∃ u, (CalendarService.updateEvent
        [{ id := "1", title := "Old", startTime := 0, endTime := 10,
           description := some "keep" }] "1" "New" (some "d2")).1 = some u ∧
      CalendarService.getEventById
        (CalendarService.updateEvent
          [{ id := "1", title := "Old", startTime := 0, endTime := 10,
             description := some "keep" }] "1" "New" (some "d2")).2 "1" = some u ∧
      u.id = ({ id := "1", title := "Old", startTime := 0, endTime := 10,
                description := some "keep" } : Event).id ∧
      u.title = "New" ∧
      u.startTime = ({ id := "1", title := "Old", startTime := 0, endTime := 10,
                       description := some "keep" } : Event).startTime ∧
      u.endTime = ({ id := "1", title := "Old", startTime := 0, endTime := 10,
                     description := some "keep" } : Event).endTime ∧
      u.description = some "d2" :=
  c1_update_by_id_roundtrip _ "1" "New" (some "d2") _ (by decide)

/-! ## Claim C2 -/

/-- Claim C2: the event id is claimed immutable, but `updateEventByTitle`
merges the deserialized `updates` mapping with `Object.assign`, which
overwrites every present field including `id`.  Evaluating the code at
the store `[{id "1", title "lunch", 0, 10}]` with the UPDATE_EVENT
payload `updates="{\"id\":\"2\"}"` changes the event's id from `"1"`
to `"2"`, contradicting the claimed invariant. -/
theorem c2_id_overwritten_by_update :
    CalendarService.updateEventByTitle
        [{ id := "1", title := "lunch", startTime := 0, endTime := 10,
           description := none }] "lunch" { id := some "2" }
      = (some { id := "2", title := "lunch", startTime := 0, endTime := 10,
                description := none },
         [{ id := "2", title := "lunch", startTime := 0, endTime := 10,
            description := none }]) ∧
    ("2" : String) ≠ "1" := by
  decide

/-! ## Claim C3 -/

/-- Characterization of the notification fan-out: the number of callbacks
invoked is the length of the prefix up to and including the first
throwing callback (all of them when none throws), and an exception
propagates iff some callback throws. -/
theorem notify_spec (subs : List Listener) :
    notify subs = (min subs.length ((subs.takeWhile (fun b => !b)).length + 1),
      subs.any (fun b => b)) := by
  induction subs with
  | nil => simp [notify]
  | cons b rest ih =>
    cases b with
    | true =>
      simp [notify, List.takeWhile_cons]
    | false =>
      simp only [notify, ih, List.takeWhile_cons, Bool.not_false, if_true,
        Bool.false_eq_true, if_false, List.length_cons, List.any_cons,
        Bool.false_or]
      simp [Nat.succ_min_succ]

/-- Claim C3, counterexample.  With three registered listeners of which
the second throws, a `createEvent` mutation invokes only the first two
callbacks: the listener registered after the throwing one is NOT
invoked, so the claim as stated is false. -/
theorem c3_listener_not_isolated :
    (createEventRun (fun _ => 0) 1 [false, true, false] [] "Lunch" "s" "e"
        none).invoked = 2 ∧
    ([false, true, false] : List Listener).length = 3 ∧ (2 : Nat) ≠ 3 := by
  decide

/-- Claim C3 (amended): a throwing listener aborts the fan-out — exactly
the callbacks up to and including the first throwing one run, and the
exception propagates — but the store snapshot is not corrupted: the
mutation is applied to the snapshot before notification, so the snapshot
equals the one produced with no (throwing) listeners at all. -/
theorem c3_snapshot_safe_fanout_aborted (dp : String → Int) (now : Nat)
    (subs : List Listener) (events : List Event) (title s e : String)
    (d : Option String) :
    (createEventRun dp now subs events title s e d).events
        = (createEventRun dp now [] events title s e d).events ∧
    (createEventRun dp now subs events title s e d).invoked
        = min subs.length ((subs.takeWhile (fun b => !b)).length + 1) ∧
    (createEventRun dp now subs events title s e d).raised
        = subs.any (fun b => b) := by
  refine ⟨rfl, ?_, ?_⟩ <;> simp [createEventRun, notify_spec]

/-! ## Claim C4 -/

/-- Claim C4, counterexample.  Two `createEvent` calls in the same
millisecond (`Date.now() = 5` for both) generate the same id `"5"`: the
second generated id equals an id already in the snapshot, and the
snapshot ids are no longer pairwise distinct. -/
theorem c4_same_millisecond_collision :
    ((CalendarService.createEvent (fun _ => 0) 5
        (CalendarService.createEvent (fun _ => 0) 5 [] "A" "s" "e" none).2
        "B" "s" "e" none).1.id
      ∈ (CalendarService.createEvent (fun _ => 0) 5 [] "A" "s" "e"
          none).2.map Event.id) ∧
    ¬ (((CalendarService.createEvent (fun _ => 0) 5
        (CalendarService.createEvent (fun _ => 0) 5 [] "A" "s" "e" none).2
        "B" "s" "e" none).2.map Event.id).Nodup) := by
  decide

/-- Claim C4 (amended): the generated id is the decimal rendering of
`Date.now()`; it differs from every id already in the snapshot — and id
distinctness is preserved — exactly under the assumption that no
existing event carries that rendering (which holds when creation
timestamps strictly increase, and fails for two calls in the same
millisecond). -/
theorem c4_fresh_timestamp_unique_ids (dp : String → Int) (now : Nat)
    (events : List Event) (title s e : String) (d : Option String)
    (h : ∀ ev ∈ events, ev.id ≠ toString now) :
    (∀ ev ∈ events,
      (CalendarService.createEvent dp now events title s e d).1.id ≠ ev.id) ∧
    ((events.map Event.id).Nodup →
      ((CalendarService.createEvent dp now events title s e d).2.map
        Event.id).Nodup) := by
  constructor
  · intro ev hev heq
    exact (h ev hev) (by simpa [CalendarService.createEvent] using heq.symm)
  · intro hnd
    simp only [CalendarService.createEvent, List.map_append, List.map_cons,
      List.map_nil]
    rw [List.nodup_append]
    refine ⟨hnd, by simp, ?_⟩
    intro a ha hb
    simp only [List.mem_singleton] at hb
    subst hb
    obtain ⟨ev, hev, hid⟩ := List.mem_map.mp ha
    exact (h ev hev) hid

/-- Witness for the amended C4 theorem at a concrete store. -/
theorem c4_fresh_timestamp_unique_ids_witness :
    (∀ ev ∈ [(⟨"1", "A", 0, 0, none⟩ : Event)],
      (CalendarService.createEvent (fun _ => 0) 2
        [(⟨"1", "A", 0, 0, none⟩ : Event)] "B" "s" "e" none).1.id ≠ ev.id) ∧
    (([(⟨"1", "A", 0, 0, none⟩ : Event)].map Event.id).Nodup →
      ((CalendarService.createEvent (fun _ => 0) 2
        [(⟨"1", "A", 0, 0, none⟩ : Event)] "B" "s" "e" none).2.map
          Event.id).Nodup) :=
  c4_fresh_timestamp_unique_ids (fun _ => 0) 2 _ "B" "s" "e" none (by decide)

/-! ## Claim C5 -/

/-- Claim C5, counterexample.  When the snapshot already holds an event
whose id equals the id `createEvent` is about to generate (possible by
the C4 collision), `getEventById` returns that earlier event, not the
one `createEvent` returned: the round-trip fails. -/
theorem c5_roundtrip_fails_on_collision :
    CalendarService.getEventById
        (CalendarService.createEvent (fun _ => 0) 5
          [(⟨"5", "A", 0, 0, none⟩ : Event)] "B" "s" "e" none).2
        (CalendarService.createEvent (fun _ => 0) 5
          [(⟨"5", "A", 0, 0, none⟩ : Event)] "B" "s" "e" none).1.id
      = some (⟨"5", "A", 0, 0, none⟩ : Event) ∧
    some ((CalendarService.createEvent (fun _ => 0) 5
        [(⟨"5", "A", 0, 0, none⟩ : Event)] "B" "s" "e" none).1)
      ≠ some (⟨"5", "A", 0, 0, none⟩ : Event) := by
  decide

/-- Claim C5 (amended): provided no event already in the snapshot
carries the id `createEvent` is about to generate, reading the created
event back by its id returns exactly the event `createEvent` returned,
also on a non-empty snapshot. -/
theorem c5_create_getById_roundtrip (dp : String → Int) (now : Nat)
    (events : List Event) (title s e : String) (d : Option String)
    (h : ∀ ev ∈ events, ev.id ≠ toString now) :
    CalendarService.getEventById
        (CalendarService.createEvent dp now events title s e d).2
        (CalendarService.createEvent dp now events title s e d).1.id
      = some (CalendarService.createEvent dp now events title s e d).1 := by
  simp only [CalendarService.createEvent, CalendarService.getEventById]
  rw [List.find?_append]
  have h1 : List.find?
      (fun event : Event => event.id == toString now) events = none :=
    List.find?_eq_none.mpr (fun x hx => by simp [h x hx])
  simp [h1]

/-- Witness for the amended C5 theorem at a concrete non-empty store. -/
theorem c5_create_getById_roundtrip_witness :
    CalendarService.getEventById
        (CalendarService.createEvent (fun _ => 0) 7
          [{ id := "1", title := "A", startTime := 0, endTime := 0,
             description := none }] "B" "s" "e" none).2
        (CalendarService.createEvent (fun _ => 0) 7
          [{ id := "1", title := "A", startTime := 0, endTime := 0,
             description := none }] "B" "s" "e" none).1.id
      = some (CalendarService.createEvent (fun _ => 0) 7
          [{ id := "1", title := "A", startTime := 0, endTime := 0,
             description := none }] "B" "s" "e" none).1 :=
  c5_create_getById_roundtrip (fun _ => 0) 7 _ "B" "s" "e" none (by decide)

/-! ## Claim C6 -/

/-- Claim C6: dispatching a `READ_EVENTS` command leaves the snapshot
unchanged, triggers no notification, and returns an event sequence
(never an error string): the full snapshot when the `title` parameter is
absent or empty, and the case-insensitive substring matches
`findEventsByTitle title` when it is non-empty. -/
theorem c6_read_events (jp : String → Option CalendarService.EventUpdates)
    (dp : String → Int) (now : Nat) (ps : List (String × String))
    (events : List Event) :
    ActionParser.execute jp dp now { command := "READ_EVENTS", params := ps }
        events =
      { result := Sum.inr (match ActionParser.getParam ps "title" with
          | some title =>
            if title = "" then CalendarService.getAllEvents events
            else CalendarService.findEventsByTitle events title
          | none => CalendarService.getAllEvents events),
        events := events, notified := false } := by
  have hexec : ActionParser.execute jp dp now
      { command := "READ_EVENTS", params := ps } events =
      { result := Sum.inr (match ActionParser.getParam ps "title" with
          | some title =>
            if title.length > 0 then CalendarService.findEventsByTitle events title
            else CalendarService.getAllEvents events
          | none => CalendarService.getAllEvents events),
        events := events, notified := false } := rfl
  rw [hexec]
  cases ht : ActionParser.getParam ps "title" with
  | none => rfl
  | some title =>
    by_cases h0 : title = ""
    · subst h0
      simp
    · have hlen : title.length > 0 := by
        cases title with
        | mk l =>
          cases l with
          | nil => exact absurd rfl h0
          | cons a t2 => simp [String.length]
      simp [h0, hlen]

/-! ## Claim C7 -/

/-- Helper: dropping the matched `takeWhile` prefix leaves `dropWhile`. -/
theorem drop_takeWhile (p : Char → Bool) (s : List Char) :
    s.drop (s.takeWhile p).length = s.dropWhile p := by
  induction s with
  | nil => rfl
  | cons a t ih =>
    by_cases hp : p a = true
    · simp [List.takeWhile_cons, List.dropWhile_cons, hp, ih]
    · simp [List.takeWhile_cons, List.dropWhile_cons, hp]

/-- Helper: a successful `splitAtLastRParen` decomposes the text as the
returned capture, a `)` and a tail. -/
theorem splitAtLastRParen_sound (s t : List Char)
    (h : ActionParser.splitAtLastRParen s = some t) :
    ∃ post, s = t ++ ')' :: post := by
  induction s generalizing t with
  | nil => simp [ActionParser.splitAtLastRParen] at h
  | cons c rest ih =>
    rw [ActionParser.splitAtLastRParen] at h
    cases h2 : ActionParser.splitAtLastRParen rest with
    | some t2 =>
      rw [h2] at h
      obtain rfl : c :: t2 = t := Option.some.inj h
      obtain ⟨post, hp⟩ := ih t2 h2
      exact ⟨post, by rw [List.cons_append, ← hp]⟩
    | none =>
      rw [h2] at h
      by_cases hc : (c == ')') = true
      · rw [if_pos hc] at h
        obtain rfl : ([] : List Char) = t := Option.some.inj h
        have hc2 : c = ')' := by simpa using hc
        exact ⟨rest, by rw [hc2]; rfl⟩
      · rw [if_neg hc] at h
        exact absurd h (by simp)

/-- Helper: a successful `matchAfterTag` means the text after `ACTION:`
decomposes as a non-empty word-character name, `(`, the captured
arguments, `)` and a tail. -/
theorem matchAfterTag_sound (s : List Char) (name args : String)
    (h : ActionParser.matchAfterTag s = some (name, args)) :
    name.data ≠ [] ∧ (∀ c ∈ name.data, ActionParser.isWordChar c) ∧
    ∃ post, s = name.data ++ '(' :: args.data ++ ')' :: post := by
  rw [ActionParser.matchAfterTag] at h
  by_cases he : (s.takeWhile ActionParser.isWordChar).isEmpty = true
  · rw [if_pos he] at h
    exact absurd h (by simp)
  · rw [if_neg he] at h
    split at h
    next c0 rest heq =>
      split at h
      next args0 hsplit =>
        obtain ⟨hn, ha⟩ : String.mk (s.takeWhile ActionParser.isWordChar) = name ∧
            String.mk args0 = args := by
          have := Option.some.inj h
          exact ⟨congrArg Prod.fst this, congrArg Prod.snd this⟩
        obtain ⟨post, hrest⟩ := splitAtLastRParen_sound rest args0 hsplit
        refine ⟨?_, ?_, post, ?_⟩
        · rw [← hn]
          intro hnil
          simp only [String.mk] at hnil
          exact absurd (by simp [List.isEmpty_iff, hnil]) he
        · intro c hc
          rw [← hn] at hc
          exact List.mem_takeWhile_imp hc
        · rw [← hn, ← ha]
          have hdecomp := List.takeWhile_append_dropWhile
            (p := ActionParser.isWordChar) (l := s)
          calc s = s.takeWhile ActionParser.isWordChar ++
                s.dropWhile ActionParser.isWordChar := hdecomp.symm
            _ = s.takeWhile ActionParser.isWordChar ++ ('(' :: rest) := by
                rw [← drop_takeWhile ActionParser.isWordChar s, heq]
            _ = _ := by simp [hrest]
      next => exact absurd h (by simp)
    next => exact absurd h (by simp)

/-- Helper: a successful `findActionMatch` decomposes the whole text as
some prefix, the literal `ACTION:`, a non-empty word-character command
name, `(`, the captured arguments, `)` and a tail. -/
theorem findActionMatch_sound (s : List Char) (name args : String)
    (h : ActionParser.findActionMatch s = some (name, args)) :
    ∃ pre post, s = pre ++ ActionParser.actionTag ++ name.data ++
        '(' :: args.data ++ ')' :: post ∧
      name.data ≠ [] ∧ (∀ c ∈ name.data, ActionParser.isWordChar c) := by
  induction s with
  | nil => simp [ActionParser.findActionMatch] at h
  | cons c rest ih =>
    rw [ActionParser.findActionMatch] at h
    by_cases hp : List.isPrefixOf ActionParser.actionTag (c :: rest) = true
    · rw [if_pos hp] at h
      cases hm : ActionParser.matchAfterTag
          ((c :: rest).drop ActionParser.actionTag.length) with
      | some r =>
        rw [hm] at h
        obtain ⟨rn, ra⟩ := r
        obtain ⟨hn, ha⟩ : rn = name ∧ ra = args := by
          have := Option.some.inj h
          exact ⟨congrArg Prod.fst this, congrArg Prod.snd this⟩
        subst hn; subst ha
        obtain ⟨h1, h2, post, h3⟩ := matchAfterTag_sound _ _ _ hm
        obtain ⟨tail, htail⟩ : ∃ tail, ActionParser.actionTag ++ tail = c :: rest := by
          have := List.isPrefixOf_iff_prefix.mp hp
          exact this
        refine ⟨[], post, ?_, h1, h2⟩
        have hdrop : (c :: rest).drop ActionParser.actionTag.length = tail := by
          rw [← htail]
          exact List.drop_left _ _
        have htail2 : tail = rn.data ++ '(' :: ra.data ++ ')' :: post :=
          hdrop.symm.trans h3
        rw [List.nil_append, ← htail, htail2]
        simp
      | none =>
        rw [hm] at h
        obtain ⟨pre, post, hs, h1, h2⟩ := ih h
        exact ⟨c :: pre, post, by simp [hs], h1, h2⟩
    · rw [if_neg hp] at h
      obtain ⟨pre, post, hs, h1, h2⟩ := ih h
      exact ⟨c :: pre, post, by simp [hs], h1, h2⟩

/-- Claim C7: `parse` is a total function (it is definable as one in
Lean, hence terminates on every input, including a never-closing quote);
whenever the text does not decompose as
`... ACTION:<word-chars>( ... ) ...` it returns `none` (equivalently,
any successful parse exhibits such a decomposition); and the plain
conversational input `Hello there, how can I help?` yields `none`, as
does a pathological input whose quote never closes. -/
theorem c7_parse_defensive :
    (∀ text : String, ActionParser.parse text = none ∨
      ∃ pre mid post, text.data = pre ++ ActionParser.actionTag ++ mid ++
          '(' :: post ∧ mid ≠ [] ∧ (∀ c ∈ mid, ActionParser.isWordChar c) ∧
          ')' ∈ post) ∧
    ActionParser.parse "Hello there, how can I help?" = none ∧
    ActionParser.parse "ACTION:F(a=\"never closing" = none := by
  refine ⟨?_, by decide, by decide⟩
  intro text
  cases hm : ActionParser.findActionMatch text.data with
  | none =>
    left
    rw [ActionParser.parse, hm]
  | some r =>
    right
    obtain ⟨name, args⟩ := r
    obtain ⟨pre, post, hs, h1, h2⟩ := findActionMatch_sound _ _ _ hm
    refine ⟨pre, name.data, args.data ++ ')' :: post, ?_, h1, h2, by simp⟩
    rw [hs]
    simp

/-! ## Claim C8 -/

/-- Helper: replacing every pair keyed `k` by `(k, v)` makes the first
`k`-keyed pair of the list `(k, v)`, provided one exists. -/
theorem find?_map_replace (m : List (String × String)) (k v : String)
    (h : m.any (fun p => p.1 == k) = true) :
    List.find? (fun p => p.1 == k)
      (m.map (fun p => if p.1 == k then (k, v) else p)) = some (k, v) := by
  induction m with
  | nil => simp at h
  | cons p t ih =>
    rw [List.map_cons]
    by_cases hp : (p.1 == k) = true
    · have hif : (if (p.1 == k) = true then (k, v) else p) = (k, v) := if_pos hp
      rw [hif]
      exact List.find?_cons_of_pos (p := fun q : String × String => q.1 == k) _ (by simp)
    · have hif : (if (p.1 == k) = true then (k, v) else p) = p := if_neg hp
      rw [hif, List.find?_cons_of_neg (p := fun q : String × String => q.1 == k) _ hp]
      exact ih (by simpa [hp] using h)

/-- Helper: replacing `k0`-keyed pairs does not affect lookup of a
different key `k`. -/
theorem find?_map_replace_ne (m : List (String × String)) (k0 v0 k : String)
    (hne : k0 ≠ k) :
    List.find? (fun p => p.1 == k)
        (m.map (fun p => if p.1 == k0 then (k0, v0) else p))
      = List.find? (fun p => p.1 == k) m := by
  induction m with
  | nil => rfl
  | cons p t ih =>
    rw [List.map_cons]
    by_cases hp : (p.1 == k0) = true
    · have he : p.1 = k0 := by simpa using hp
      have hif : (if (p.1 == k0) = true then (k0, v0) else p) = (k0, v0) :=
        if_pos hp
      have hpk : ¬ (p.1 == k) = true := by simp [he, hne]
      rw [hif, List.find?_cons_of_neg (p := fun q : String × String => q.1 == k) _ (by simp [hne] :
        ¬ (((k0, v0) : String × String).1 == k) = true)]
      rw [List.find?_cons_of_neg (p := fun q : String × String => q.1 == k) _ hpk]
      exact ih
    · have hif : (if (p.1 == k0) = true then (k0, v0) else p) = p := if_neg hp
      rw [hif]
      by_cases hpk : (p.1 == k) = true
      · rw [List.find?_cons_of_pos (p := fun q : String × String => q.1 == k) _ hpk]
        rw [List.find?_cons_of_pos (p := fun q : String × String => q.1 == k) _ hpk]
      · rw [List.find?_cons_of_neg (p := fun q : String × String => q.1 == k) _ hpk]
        rw [List.find?_cons_of_neg (p := fun q : String × String => q.1 == k) _ hpk]
        exact ih

/-- Helper: after `params[k] = v`, reading `params[k]` yields `v`. -/
theorem getParam_jsAssign_same (m : List (String × String)) (k v : String) :
    ActionParser.getParam (ActionParser.jsAssign m k v) k = some v := by
  rw [ActionParser.jsAssign]
  by_cases hany : (m.any (fun p => p.1 == k)) = true
  · rw [if_pos hany, ActionParser.getParam, find?_map_replace m k v hany]
    rfl
  · rw [if_neg hany, ActionParser.getParam, List.find?_append]
    have h1 : List.find? (fun p => p.1 == k) m = none :=
      List.find?_eq_none.mpr (fun x hx hpx =>
        hany (List.any_eq_true.mpr ⟨x, hx, hpx⟩))
    simp [h1]

/-- Helper: `params[k0] = v0` does not affect reading a different key. -/
theorem getParam_jsAssign_ne (m : List (String × String)) (k0 v0 k : String)
    (hne : k0 ≠ k) :
    ActionParser.getParam (ActionParser.jsAssign m k0 v0) k
      = ActionParser.getParam m k := by
  rw [ActionParser.jsAssign]
  by_cases hany : (m.any (fun p => p.1 == k0)) = true
  · rw [if_pos hany, ActionParser.getParam,
      find?_map_replace_ne m k0 v0 k hne]
    rfl
  · rw [if_neg hany, ActionParser.getParam, List.find?_append]
    have h1 : List.find? (fun p : String × String => p.1 == k) [(k0, v0)]
        = none := by
      simp [hne]
    rw [h1, ActionParser.getParam]
    simp

/-- Helper: reading key `k` after folding the extracted matches into the
parameter object yields the value of the LAST match with that key, and
otherwise whatever the initial object held. -/
theorem getParam_assignParams_go (ms : List (String × String))
    (m : List (String × String)) (k : String) :
    ActionParser.getParam
        (ms.foldl (fun acc kv => ActionParser.jsAssign acc kv.1 kv.2) m) k
      = Option.or ((ms.reverse.find? (fun p => p.1 == k)).map
          (fun p => p.2)) (ActionParser.getParam m k) := by
  induction ms generalizing m with
  | nil => simp
  | cons kv tl ih =>
    rw [List.foldl_cons, ih]
    rw [List.reverse_cons, List.find?_append]
    cases ha : tl.reverse.find? (fun p => p.1 == k) with
    | some p => simp
    | none =>
      simp only [Option.none_or, Option.map]
      by_cases hk : (kv.1 == k) = true
      · have he : kv.1 = k := by simpa using hk
        rw [show ActionParser.getParam (ActionParser.jsAssign m kv.1 kv.2) k
            = some kv.2 from he ▸ getParam_jsAssign_same m k kv.2]
        simp [hk]
      · rw [getParam_jsAssign_ne m kv.1 kv.2 k (by simpa using hk)]
        simp [hk]

/-- Claim C8: for a text matching the outer pattern, duplicate parameter
keys are resolved by sequential overwrite — reading a key from the built
parameter object yields the value of its LAST extracted occurrence — and
an empty argument text yields a command with the extracted name and an
empty parameter mapping. -/
theorem c8_duplicate_keys_last_wins :
    (∀ ms k, ActionParser.getParam (ActionParser.assignParams ms) k
      = (ms.reverse.find? (fun p => p.1 == k)).map (fun p => p.2)) ∧
    (∀ text name, ActionParser.findActionMatch text.data = some (name, "") →
      ActionParser.parse text = some { command := name, params := [] }) := by
  constructor
  · intro ms k
    rw [ActionParser.assignParams, getParam_assignParams_go ms [] k]
    simp [ActionParser.getParam]
  · intro text name hm
    simp only [ActionParser.parse, hm]
    simp [ActionParser.extractParams, ActionParser.assignParams]

/-- Witness for the C8 theorem: a duplicated key resolves to its last
value, and the concrete empty-argument text `ACTION:FOO()` parses to the
command `FOO` with no parameters. -/
theorem c8_duplicate_keys_last_wins_witness :
    ActionParser.getParam
        (ActionParser.assignParams [("k", "1"), ("k", "2")]) "k"
      = some "2" ∧
    ActionParser.parse "ACTION:FOO()" = some { command := "FOO", params := [] } :=
  ⟨Eq.trans (c8_duplicate_keys_last_wins.1 [("k", "1"), ("k", "2")] "k")
      (by decide),
   c8_duplicate_keys_last_wins.2 "ACTION:FOO()" "FOO" (by decide)⟩

/-! ## Claim C9 -/

/-- Claim C9: dispatching a command whose name is none of the four known
commands returns the string `Unknown command: <name>` (naming the
offending command), leaves the snapshot unchanged, and performs no
notification. -/
theorem c9_unknown_command (jp : String → Option CalendarService.EventUpdates)
    (dp : String → Int) (now : Nat) (cmd : String)
    (ps : List (String × String)) (events : List Event)
    (h1 : cmd ≠ "CREATE_EVENT") (h2 : cmd ≠ "READ_EVENTS")
    (h3 : cmd ≠ "UPDATE_EVENT") (h4 : cmd ≠ "DELETE_EVENT") :
    ActionParser.execute jp dp now { command := cmd, params := ps } events =
      { result := Sum.inl ("Unknown command: " ++ cmd), events := events,
        notified := false } := by
  have e1 : (cmd == "CREATE_EVENT") = false := beq_eq_false_iff_ne.mpr h1
  have e2 : (cmd == "READ_EVENTS") = false := beq_eq_false_iff_ne.mpr h2
  have e3 : (cmd == "UPDATE_EVENT") = false := beq_eq_false_iff_ne.mpr h3
  have e4 : (cmd == "DELETE_EVENT") = false := beq_eq_false_iff_ne.mpr h4
  rw [ActionParser.execute]
  simp [e1, e2, e3, e4]

/-- Witness for the C9 theorem at the spec's concrete scenario
`ACTION:FROBNICATE(x="1")` against a one-event store. -/
theorem c9_unknown_command_witness :
    ActionParser.execute (fun _ => none) (fun _ => 0) 1
        { command := "FROBNICATE", params := [("x", "1")] }
        [(⟨"1", "A", 0, 0, none⟩ : Event)] =
      { result := Sum.inl ("Unknown command: " ++ "FROBNICATE"),
        events := [(⟨"1", "A", 0, 0, none⟩ : Event)], notified := false } :=
  c9_unknown_command (fun _ => none) (fun _ => 0) 1 "FROBNICATE" [("x", "1")]
    [(⟨"1", "A", 0, 0, none⟩ : Event)] (by decide) (by decide) (by decide)
    (by decide)

/-! ## Claim C10 -/

/-- Helper: the second store variant returns `(false, events, false)` —
no removal, unchanged snapshot, no notification — when no event carries
the requested id. -/
theorem variant5_deleteEvent_absent (events : List Event) (id : String)
    (h : ∀ e ∈ events, e.id ≠ id) :
    Variant5.deleteEvent events id = (false, events, false) := by
  induction events with
  | nil => rfl
  | cons e rest ih =>
    have he : (e.id == id) = false := by simp [h e (by simp)]
    simp only [Variant5.deleteEvent, he, Bool.false_eq_true, if_false]
    rw [ih (fun x hx => h x (by simp [hx]))]

/-- Helper: when no registered callback throws, the notification fan-out
invokes every callback, i.e. as many invocations as subscribers. -/
theorem notify_no_throw (subs : List Listener) (h : ∀ b ∈ subs, b = false) :
    (notify subs).1 = subs.length := by
  induction subs with
  | nil => rfl
  | cons b rest ih =>
    have hb : b = false := h b (by simp)
    subst hb
    simp only [notify, Bool.false_eq_true, if_false, List.length_cons]
    rw [ih (fun x hx => h x (by simp [hx]))]

/-- Claim C10: when no event carries the requested id, the first store
variant's `deleteEvent` returns `false`, leaves the snapshot unchanged,
and still runs the notification fan-out (notification is unconditional),
invoking every registered non-throwing subscriber once; the second
variant's `deleteEvent` returns `false` without notifying anyone. -/
theorem c10_delete_missing_id (events : List Event) (id : String)
    (h : ∀ e ∈ events, e.id ≠ id) :
    CalendarService.deleteEvent events id = (false, events, true) ∧
    Variant5.deleteEvent events id = (false, events, false) ∧
    (∀ subs : List Listener, (∀ b ∈ subs, b = false) →
      (notify subs).1 = subs.length) := by
  have hfilter : events.filter (fun event => !(event.id == id)) = events :=
    List.filter_eq_self.mpr (fun a ha => by simp [h a ha])
  refine ⟨?_, variant5_deleteEvent_absent events id h,
    fun subs hs => notify_no_throw subs hs⟩
  rw [CalendarService.deleteEvent]
  simp only [hfilter]
  simp

/-- Witness for the C10 theorem at a concrete store, absent id and
subscriber list. -/
theorem c10_delete_missing_id_witness :
    CalendarService.deleteEvent [(⟨"1", "A", 0, 0, none⟩ : Event)] "9"
        = (false, [(⟨"1", "A", 0, 0, none⟩ : Event)], true) ∧
    Variant5.deleteEvent [(⟨"1", "A", 0, 0, none⟩ : Event)] "9"
        = (false, [(⟨"1", "A", 0, 0, none⟩ : Event)], false) ∧
    (notify [false, false]).1 = ([false, false] : List Listener).length :=
  ⟨(c10_delete_missing_id [(⟨"1", "A", 0, 0, none⟩ : Event)] "9"
      (by decide)).1,
   (c10_delete_missing_id [(⟨"1", "A", 0, 0, none⟩ : Event)] "9"
      (by decide)).2.1,
   (c10_delete_missing_id [(⟨"1", "A", 0, 0, none⟩ : Event)] "9"
      (by decide)).2.2 [false, false] (by decide)⟩

end CalendarApp
